import Mathlib

/-!
Shallow embedding of the PureMVC TypeScript multicore framework's View/Model
core (src/org/puremvc/typescript/multicore/core/View.ts, Model, and
patterns/proxy/Proxy.ts), together with theorems checking the
natural-language specification against it.

JavaScript objects are represented by identity tokens (`Nat`); the string-keyed
`Record` maps become functions `String → Option _` (a missing key is `none`;
JS truthiness of an object/array value corresponds to `isSome`, since arrays
and objects are always truthy, even when empty). Operations that can throw a
runtime `TypeError` (dereferencing `undefined`) return `Option`: `none` is the
thrown exception. Calls to lifecycle hooks (`onRegister`, `onRemove`,
`initializeNotifier`) and to `listNotificationInterests` are recorded in an
event log, since their effect lives outside the View's own state.
-/

namespace PureMVC

/-- Observable events: lifecycle-hook invocations, interest queries, and
handler invocations performed by the embedded operations. -/
inductive Event where
  /-- An Observer's handler `handlerId` was invoked, passed the notification
  named `noteName` (`observer.notifyObserver(notification)`). -/
  | handled (handlerId : Nat) (noteName : String)
  /-- `mediator.initializeNotifier(multitonKey)` was called. -/
  | initNotifier (mediatorName : String)
  /-- `mediator.listNotificationInterests()` was called. -/
  | interestsQueried (mediatorName : String)
  /-- `mediator.onRegister()` was called. -/
  | onRegister (mediatorName : String)
  /-- `mediator.onRemove()` was called. -/
  | onRemove (mediatorName : String)
  /-- `proxy.initializeNotifier(multitonKey)` was called. -/
  | initNotifierP (proxyId : Nat)
  /-- `proxy.onRegister()` was called. -/
  | onRegisterP (proxyId : Nat)
  /-- `proxy.onRemove()` was called. -/
  | onRemoveP (proxyId : Nat)
  deriving DecidableEq

/-- Modelled from the spec: the `Observer` class
(`patterns/observer/Observer`) is not under `src/`; per spec §3/§4.3 an
Observer is an ownership-free pair of a handler callable and a
`notifyContext` identity, compared by identity of the context. The callable
is represented by its identity token `notifyId`, the context by the token
`context`. -/
structure Observer where
  notifyId : Nat
  context : Nat
  deriving DecidableEq

/-- Modelled from the spec: `Observer.compareNotifyContext(object)` is
identity comparison between `object` and the stored context (spec §4.3). -/
def compareNotifyContext (observer : Observer) (object : Nat) : Bool :=
  observer.context == object

/-- A notification value; only its name is consulted by the View
(`notification.getName()`). -/
structure Notification where
  name : String
  deriving DecidableEq

/-- Accessor `INotification.getName()`. -/
def Notification.getName (n : Notification) : String := n.name

/-- Modelled from the spec: the `Mediator` base class
(`patterns/mediator/Mediator`) is not under `src/`; per spec §3 a Mediator
has a name and a list of notification interests fixed per instance, and an
object identity (`id`, used as the Observer's `notifyContext` and standing
for its bound `handleNotification` callable). -/
structure Mediator where
  name : String
  interests : List String
  id : Nat
  deriving DecidableEq

/-- Accessor `IMediator.getMediatorName()`. -/
def Mediator.getMediatorName (m : Mediator) : String := m.name

/-- Accessor `IMediator.listNotificationInterests()`. -/
def Mediator.listNotificationInterests (m : Mediator) : List String := m.interests

/-- State of one `View` instance: `mediatorMap` maps Mediator names to
Mediator instances; `observerMap` maps notification names to Observer
lists. -/
structure ViewState where
  mediatorMap : String → Option Mediator
  observerMap : String → Option (List Observer)

/-- Update a string-keyed map at one key (assignment / `delete`). -/
def setKey {α : Type} (f : String → Option α) (k : String) (v : Option α) :
    String → Option α :=
  fun n => if n = k then v else f n

/-- The maps of a freshly constructed `View` (constructor lines 66-67:
`this.mediatorMap = {}; this.observerMap = {}`). -/
def initialView : ViewState :=
  { mediatorMap := fun _ => none, observerMap := fun _ => none }

/-- `View.registerObserver(notificationName, observer)` (View.ts 93-101):
if a list exists for the name (arrays are truthy in JS even when empty),
push the observer onto it; otherwise create a fresh one-element list. -/
def registerObserver (notificationName : String) (observer : Observer)
    (s : ViewState) : ViewState :=
  match s.observerMap notificationName with
  | some observers =>
      { s with observerMap :=
          setKey s.observerMap notificationName (some (observers ++ [observer])) }
  | none =>
      { s with observerMap :=
          setKey s.observerMap notificationName (some [observer]) }

/-- The reverse scan of `View.removeObserver` (View.ts 119-126) applied to an
already-reversed list: remove the first element whose context matches, then
stop (`break`). -/
def removeFirstMatch (notifyContext : Nat) : List Observer → List Observer
  | [] => []
  | o :: rest =>
      if compareNotifyContext o notifyContext then rest
      else o :: removeFirstMatch notifyContext rest

/-- The effect of the `while (i--) { ... splice(i, 1); break }` loop of
`View.removeObserver`: scanning from the end, remove the last (most recently
registered) observer whose context matches, at most one. -/
def removeLastCtx (notifyContext : Nat) (observers : List Observer) :
    List Observer :=
  (removeFirstMatch notifyContext observers.reverse).reverse

/-- `View.removeObserver(notificationName, notifyContext)` (View.ts 114-134):
reads `this.observerMap[notificationName]` and immediately dereferences
`.length`, so a missing key throws a TypeError (`none`). Otherwise removes
the most recent context match (at most one), and deletes the key when the
list's length falls to zero. -/
def removeObserver (notificationName : String) (notifyContext : Nat)
    (s : ViewState) : Option ViewState :=
  match s.observerMap notificationName with
  | none => none
  | some observers =>
      let observers' := removeLastCtx notifyContext observers
      if observers'.length = 0 then
        some { s with observerMap := setKey s.observerMap notificationName none }
      else
        some { s with
          observerMap := setKey s.observerMap notificationName (some observers') }

/-- Semantics of the stored handler callables: given an Observer's `notifyId`
and the notification, a handler transforms the View state and emits events,
or throws (`none`). `Observer.notifyObserver(notification)` invokes the
handler bound to the stored context (spec §4.3). -/
def Interp : Type :=
  Nat → Notification → ViewState → Option (ViewState × List Event)

/-- The `for` loop of `View.notifyObservers` (View.ts 154-157): invoke each
Observer of the snapshot in order. An exception from a handler propagates
(aborts the loop). -/
def deliver (interp : Interp) (notification : Notification) :
    List Observer → ViewState → Option (ViewState × List Event)
  | [], s => some (s, [])
  | o :: rest, s =>
      match interp o.notifyId notification s with
      | none => none
      | some (s1, ev1) =>
          match deliver interp notification rest s1 with
          | none => none
          | some (s2, ev2) =>
              some (s2, (Event.handled o.notifyId notification.getName :: ev1) ++ ev2)

/-- `View.notifyObservers(notification)` (View.ts 146-159): look up the list
for the notification's name; if missing, do nothing. Otherwise iterate over
a snapshot copy (`observersRef.slice(0)`) taken at call time — here the list
bound from the pre-call state, which later state updates cannot affect —
invoking each Observer's handler in order. -/
def notifyObservers (interp : Interp) (notification : Notification)
    (s : ViewState) : Option (ViewState × List Event) :=
  match s.observerMap notification.getName with
  | none => some (s, [])
  | some observersRef => deliver interp notification observersRef s

/-- `View.registerMediator(mediator)` (View.ts 176-202): no-op when the name
is taken; otherwise call `initializeNotifier`, store the mediator, query its
interests once, register one shared Observer (wrapping
`(mediator.handleNotification, mediator)`) under every interest in order,
and finally call `onRegister`. -/
def registerMediator (mediator : Mediator) (s : ViewState) :
    ViewState × List Event :=
  if (s.mediatorMap mediator.getMediatorName).isSome then (s, [])
  else
    let s1 : ViewState :=
      { s with mediatorMap :=
          setKey s.mediatorMap mediator.getMediatorName (some mediator) }
    let observer : Observer := ⟨mediator.id, mediator.id⟩
    let s2 := mediator.listNotificationInterests.foldl
      (fun st n => registerObserver n observer st) s1
    (s2, [Event.initNotifier mediator.getMediatorName,
          Event.interestsQueried mediator.getMediatorName,
          Event.onRegister mediator.getMediatorName])

/-- `View.retrieveMediator(mediatorName)` (View.ts 214-217): the stored
mediator, or a strict null (`none`) — returned normally, never thrown. -/
def retrieveMediator (mediatorName : String) (s : ViewState) :
    Option Mediator :=
  s.mediatorMap mediatorName

/-- The `let i = interests.length; while (i--) removeObserver(interests[i],
mediator)` loop of `View.removeMediator` (View.ts 239-241): process the
interest list from its end; an exception from `removeObserver` propagates. -/
def removeObserversRev (interests : List String) (notifyContext : Nat)
    (s : ViewState) : Option ViewState :=
  match interests with
  | [] => some s
  | n :: rest =>
      match removeObserversRev rest notifyContext s with
      | none => none
      | some s1 => removeObserver n notifyContext s1

/-- `View.removeMediator(mediatorName)` (View.ts 229-250): absent name
returns null with no side effects; otherwise re-query the mediator's
interests, remove its Observer from each interest's list (iterating the
interests in reverse), delete the mediator from `mediatorMap`, call
`onRemove`, and return the removed mediator. -/
def removeMediator (mediatorName : String) (s : ViewState) :
    Option (ViewState × Option Mediator × List Event) :=
  match s.mediatorMap mediatorName with
  | none => some (s, none, [])
  | some mediator =>
      match removeObserversRev mediator.listNotificationInterests mediator.id s with
      | none => none
      | some s1 =>
          some ({ s1 with mediatorMap := setKey s1.mediatorMap mediatorName none },
                some mediator,
                [Event.interestsQueried mediatorName, Event.onRemove mediatorName])

/-- `View.hasMediator(mediatorName)` (View.ts 261-263). -/
def hasMediator (mediatorName : String) (s : ViewState) : Bool :=
  (s.mediatorMap mediatorName).isSome

/-- A data proxy (patterns/proxy/Proxy.ts): a name plus an object identity
token (the held data plays no role in the claims). -/
structure DataProxy where
  name : String
  id : Nat
  deriving DecidableEq

/-- Accessor `IProxy.getProxyName()`. -/
def DataProxy.getProxyName (p : DataProxy) : String := p.name

/-- State of one `Model` instance: `proxyMap` maps Proxy names to Proxy
instances (View.ts, Model section, line 326). -/
structure ModelState where
  proxyMap : String → Option DataProxy

/-- The map of a freshly constructed `Model` (`this.proxyMap = {}`). -/
def initialModel : ModelState := { proxyMap := fun _ => none }

/-- `Model.registerProxy(proxy)` (View.ts, Model section, 372-376): call
`initializeNotifier`, store the proxy under its name unconditionally
(silently overwriting any previous holder), call `onRegister`. -/
def registerProxy (proxy : DataProxy) (s : ModelState) :
    ModelState × List Event :=
  ({ proxyMap := setKey s.proxyMap proxy.getProxyName (some proxy) },
   [Event.initNotifierP proxy.id, Event.onRegisterP proxy.id])

/-- `Model.removeProxy(proxyName)` (View.ts, Model section, 388-396): delete
and call `onRemove` when present; return the removed proxy or `undefined`
(here `none`). -/
def removeProxy (proxyName : String) (s : ModelState) :
    ModelState × Option DataProxy × List Event :=
  match s.proxyMap proxyName with
  | none => (s, none, [])
  | some proxy =>
      ({ proxyMap := setKey s.proxyMap proxyName none }, some proxy,
       [Event.onRemoveP proxy.id])

/-- `Model.retrieveProxy(proxyName)` (View.ts, Model section, 408-411): the
stored proxy or a strict null. -/
def retrieveProxy (proxyName : String) (s : ModelState) : Option DataProxy :=
  s.proxyMap proxyName

/-- `Model.hasProxy(proxyName)` (View.ts, Model section, 422-424). -/
def hasProxy (proxyName : String) (s : ModelState) : Bool :=
  (s.proxyMap proxyName).isSome

/-- The static `instanceMap` shared by all constructions of one multiton
class (View.ts 268 / Model section 429), with instances represented by
identity tokens: `nextId` is the next fresh object identity. -/
structure Factory where
  instanceMap : String → Option Nat
  nextId : Nat

/-- The empty static instance map (`protected static instanceMap = {}`). -/
def initialFactory : Factory := { instanceMap := fun _ => none, nextId := 0 }

/-- The `View` constructor's effect on the static map (View.ts 58-70): throw
(`none`) when an instance for the key already exists — before any mutation —
otherwise store the fresh instance (`View.instanceMap[key] = this`) and
return it. The per-instance maps it also initializes are `initialView`. -/
def viewConstruct (key : String) (f : Factory) : Option (Factory × Nat) :=
  if (f.instanceMap key).isSome then none
  else
    some ({ instanceMap := setKey f.instanceMap key (some f.nextId),
            nextId := f.nextId + 1 }, f.nextId)

/-- `View.getInstance(key)` (View.ts 279-284): construct on first use (the
constructor itself stores the instance), then return the stored instance.
The final fallback arm is unreachable: the constructor cannot throw when the
key is absent (proved in the multiton theorem below). -/
def getInstanceView (key : String) (f : Factory) : Factory × Nat :=
  match f.instanceMap key with
  | some i => (f, i)
  | none =>
      match viewConstruct key f with
      | some r => r
      | none => (f, 0)

/-- The `Model` constructor's effect on the static map (View.ts, Model
section, 344-354): identical guard-then-store shape as the View's. -/
def modelConstruct (key : String) (f : Factory) : Option (Factory × Nat) :=
  if (f.instanceMap key).isSome then none
  else
    some ({ instanceMap := setKey f.instanceMap key (some f.nextId),
            nextId := f.nextId + 1 }, f.nextId)

/-- `Model.getInstance(key)` (View.ts, Model section, 440-445). -/
def getInstanceModel (key : String) (f : Factory) : Factory × Nat :=
  match f.instanceMap key with
  | some i => (f, i)
  | none =>
      match modelConstruct key f with
      | some r => r
      | none => (f, 0)

/-- One call of the public observer API, for stating invariants over call
sequences. -/
inductive ViewOp where
  | regObs (notificationName : String) (observer : Observer)
  | remObs (notificationName : String) (notifyContext : Nat)

/-- Apply one observer-API call; a thrown TypeError is `none`. -/
def applyOp : ViewOp → ViewState → Option ViewState
  | .regObs n o, s => some (registerObserver n o s)
  | .remObs n c, s => removeObserver n c s

/-- Run a sequence of observer-API calls; an exception aborts the run. -/
def runOps : List ViewOp → ViewState → Option ViewState
  | [], s => some s
  | op :: rest, s =>
      match applyOp op s with
      | none => none
      | some s1 => runOps rest s1

/-- The spec's §3 invariant on `observerMap`: no notification name is mapped
to an empty Observer list. -/
def NoEmptyLists (s : ViewState) : Prop :=
  ∀ n, s.observerMap n ≠ some []

/-- A handler interpretation that leaves the state unchanged and emits no
events (a Mediator whose `handleNotification` body is empty). -/
def inertInterp : Interp := fun _ _ st => some (st, [])

/-- Reading an updated map at the updated key. -/
theorem setKey_same {α : Type} (f : String → Option α) (k : String)
    (v : Option α) : setKey f k v k = v := by
  simp [setKey]

/-- Reading an updated map at a different key. -/
theorem setKey_other {α : Type} (f : String → Option α) (k n : String)
    (v : Option α) (h : n ≠ k) : setKey f k v n = f n := by
  simp [setKey, h]

/-- Context comparison succeeds exactly on identity-equal contexts. -/
theorem compareNotifyContext_eq (x : Observer) (c : Nat) :
    compareNotifyContext x c = true ↔ x.context = c := by
  simp [compareNotifyContext]

/-- Context comparison fails exactly on distinct contexts. -/
theorem compareNotifyContext_ne (x : Observer) (c : Nat) :
    compareNotifyContext x c = false ↔ x.context ≠ c := by
  simp [compareNotifyContext]

/-- Delivering to inert handlers only logs the handler invocations. -/
theorem deliver_inert (note : Notification) :
    ∀ (l : List Observer) (s : ViewState),
      deliver inertInterp note l s =
        some (s, l.map (fun o => Event.handled o.notifyId note.getName)) := by
  intro l
  induction l with
  | nil => intro s; rfl
  | cons o rest ih => intro s; simp [deliver, inertInterp, ih]

/-- The test double `ViewTestMediator6` (src/unnamed/part_000, lines 52-74):
interested in `"N6"`, and its `handleNotification` removes the mediator
itself from the View by name. Identity token 6. -/
def mediator6 : Mediator := ⟨"ViewTestMediator6", ["N6"], 6⟩

/-- Handler semantics of the re-entrant scenario: handler 6 performs
`facade.removeMediator(this.getMediatorName())` (which delegates to
`View.removeMediator`); any other handler does nothing. -/
def interp6 : Interp := fun hid _note s =>
  if hid = 6 then
    (removeMediator "ViewTestMediator6" s).map (fun r => (r.1, r.2.2))
  else some (s, [])

/-- The View after registering `mediator6` on a fresh instance. -/
def scenarioState : ViewState := (registerMediator mediator6 initialView).1

/-- The scenario's notification, named `"N6"`. -/
def note6 : Notification := ⟨"N6"⟩

/-- The full run of the re-entrant removal scenario:
`notifyObservers(new Notification("N6"))`. -/
def run6 : Option (ViewState × List Event) :=
  notifyObservers interp6 note6 scenarioState

/-- C3: in the re-entrant removal scenario — mediator registered with
interest `["N6"]` whose handler removes the mediator itself — a single
`notifyObservers` call for `N6` returns normally (no error), runs the
handler exactly once, fires the mediator's `onRemove` hook exactly once,
and leaves the mediator and its observer list fully removed. -/
theorem reentrant_self_removal_scenario :
    (run6.map fun r => (r.2.count (Event.handled 6 "N6"),
        r.2.count (Event.onRemove "ViewTestMediator6"))) = some (1, 1) ∧
    (run6.map fun r =>
        (r.1.mediatorMap "ViewTestMediator6", r.1.observerMap "N6"))
      = some (none, none) := by
  exact ⟨rfl, rfl⟩

/-- A mediator used to exhibit the interest re-query performed by
`removeMediator`. -/
def mediator9 : Mediator := ⟨"M9", ["A9"], 9⟩

/-- The View after registering `mediator9` on a fresh instance. -/
def state9 : ViewState := (registerMediator mediator9 initialView).1

/-- C9 counterexample: `removeMediator` — a View operation performed after
registration — calls `listNotificationInterests()` again (View.ts 236), so
the interests are not queried only at registration time. -/
theorem interests_requeried_on_removal :
    ((removeMediator "M9" state9).map fun r =>
        r.2.2.count (Event.interestsQueried "M9")) = some 1 := by
  exact rfl

/-- C9 (amended): `listNotificationInterests` is queried exactly once by
`registerMediator`, exactly once more by `removeMediator` when it removes
the mediator, and by no other View operation (`registerObserver`,
`removeObserver` and `retrieveMediator` call no mediator methods, and
`notifyObservers` itself queries no interests — only the handlers it runs
may). -/
theorem interests_queried_once_per_register_and_remove
    (m : Mediator) (s : ViewState)
    (hfresh : s.mediatorMap m.getMediatorName = none) :
    (registerMediator m s).2.count (Event.interestsQueried m.getMediatorName) = 1 ∧
    (∀ s' r, s'.mediatorMap m.getMediatorName = some m →
      removeMediator m.getMediatorName s' = some r →
      r.2.2.count (Event.interestsQueried m.getMediatorName) = 1) ∧
    (∀ (note : Notification) (t t' : ViewState) (log : List Event),
      notifyObservers inertInterp note t = some (t', log) →
      log.count (Event.interestsQueried m.getMediatorName) = 0) := by
  refine ⟨?_, ?_, ?_⟩
  · have hs : (s.mediatorMap m.getMediatorName).isSome = false := by
      rw [hfresh]; rfl
    simp [registerMediator, hs, List.count_cons]
  · intro s' r hmed hrem
    simp only [removeMediator, hmed] at hrem
    cases hrev : removeObserversRev m.listNotificationInterests m.id s' with
    | none => simp only [hrev] at hrem; exact absurd hrem (by simp)
    | some s1 =>
        simp only [hrev, Option.some.injEq] at hrem
        rw [← hrem]
        simp [List.count_cons]
  · intro note t t' log hrun
    simp only [notifyObservers] at hrun
    cases ht : t.observerMap note.getName with
    | none =>
        simp only [ht, Option.some.injEq, Prod.mk.injEq] at hrun
        rw [← hrun.2]
        rfl
    | some l =>
        simp only [ht, deliver_inert, Option.some.injEq, Prod.mk.injEq] at hrun
        rw [← hrun.2]
        rw [List.count_eq_zero]
        simp

/-- C9 amended, applied: a freshly registered mediator's registration event
log queries interests exactly once. -/
theorem interests_queried_once_witness :
    (registerMediator mediator9 initialView).2.count
      (Event.interestsQueried "M9") = 1 :=
  (interests_queried_once_per_register_and_remove mediator9 initialView rfl).1

/-- C5: with a mediator `m1` already registered under a name, registering a
second mediator `m2` with the same name is a complete no-op: the state (both
`mediatorMap` and `observerMap`) is returned unchanged, no events fire (so
`m2`'s `initializeNotifier` and `onRegister` are never invoked), and
`retrieveMediator` still returns `m1`. -/
theorem registerMediator_duplicate_noop (s : ViewState) (m1 m2 : Mediator)
    (h : s.mediatorMap m2.getMediatorName = some m1) :
    registerMediator m2 s = (s, []) ∧
    retrieveMediator m2.getMediatorName (registerMediator m2 s).1 = some m1 := by
  have hs : (s.mediatorMap m2.getMediatorName).isSome = true := by rw [h]; rfl
  constructor
  · simp [registerMediator, hs]
  · simp [registerMediator, hs, retrieveMediator, h]

/-- A first mediator registered under the name `"X"`. -/
def wMediatorX1 : Mediator := ⟨"X", [], 1⟩

/-- A second, distinct mediator also named `"X"`. -/
def wMediatorX2 : Mediator := ⟨"X", ["B"], 2⟩

/-- A View that already holds `wMediatorX1`. -/
def wViewX : ViewState := (registerMediator wMediatorX1 initialView).1

/-- C5 applied: registering a second mediator named `"X"` over `wViewX`
changes nothing and retrieval still yields the first instance. -/
theorem registerMediator_duplicate_noop_witness :
    registerMediator wMediatorX2 wViewX = (wViewX, []) ∧
    retrieveMediator "X" (registerMediator wMediatorX2 wViewX).1
      = some wMediatorX1 :=
  registerMediator_duplicate_noop wViewX wMediatorX1 wMediatorX2 rfl

/-- C8: registering a proxy `p2` under a name already held by `p1` silently
overwrites: afterwards `retrieveProxy` returns `p2`, the events are exactly
`p2`'s `initializeNotifier` and `onRegister` calls, and no `onRemove` hook
of any proxy fires. -/
theorem registerProxy_silent_overwrite (s : ModelState) (p1 p2 : DataProxy)
    (h : s.proxyMap p2.getProxyName = some p1) :
    retrieveProxy p2.getProxyName (registerProxy p2 s).1 = some p2 ∧
    (registerProxy p2 s).2 = [Event.initNotifierP p2.id, Event.onRegisterP p2.id] ∧
    ∀ q, Event.onRemoveP q ∉ (registerProxy p2 s).2 := by
  refine ⟨?_, rfl, ?_⟩
  · simp [retrieveProxy, registerProxy, setKey]
  · intro q
    simp [registerProxy]

/-- A first proxy registered under the name `"P"`. -/
def wProxyP1 : DataProxy := ⟨"P", 1⟩

/-- A second, distinct proxy also named `"P"`. -/
def wProxyP2 : DataProxy := ⟨"P", 2⟩

/-- A Model that already holds `wProxyP1`. -/
def wModelP : ModelState := (registerProxy wProxyP1 initialModel).1

/-- C8 applied: the second proxy named `"P"` replaces the first, with the
second's registration events and nobody's removal hook. -/
theorem registerProxy_silent_overwrite_witness :
    retrieveProxy "P" (registerProxy wProxyP2 wModelP).1 = some wProxyP2 ∧
    (registerProxy wProxyP2 wModelP).2
      = [Event.initNotifierP 2, Event.onRegisterP 2] ∧
    ∀ q, Event.onRemoveP q ∉ (registerProxy wProxyP2 wModelP).2 :=
  registerProxy_silent_overwrite wModelP wProxyP1 wProxyP2 rfl

/-- C10: for a notification name absent from `observerMap`,
`removeObserver` throws (dereferences the missing list: `none`), while the
missing-name cases of `notifyObservers`, `removeMediator` and
`retrieveMediator` all return normally — so `removeObserver` has the
unstated precondition that the name is currently mapped. -/
theorem removeObserver_missing_name_throws (s : ViewState) (name : String)
    (ctx : Nat) (h : s.observerMap name = none) :
    removeObserver name ctx s = none ∧
    (∀ (interp : Interp) (note : Notification), note.getName = name →
      notifyObservers interp note s = some (s, [])) ∧
    (∀ mn, s.mediatorMap mn = none →
      removeMediator mn s = some (s, none, []) ∧ retrieveMediator mn s = none) := by
  refine ⟨?_, ?_, ?_⟩
  · simp [removeObserver, h]
  · intro interp note hn
    simp [notifyObservers, hn, h]
  · intro mn hmn
    exact ⟨by simp [removeMediator, hmn], by simp [retrieveMediator, hmn]⟩

/-- C10 applied: on a fresh View, `removeObserver` for any name throws while
the other missing-name lookups are silent no-ops. -/
theorem removeObserver_missing_name_throws_witness :
    removeObserver "Z" 0 initialView = none ∧
    (∀ (interp : Interp) (note : Notification), note.getName = "Z" →
      notifyObservers interp note initialView = some (initialView, [])) ∧
    (∀ mn, initialView.mediatorMap mn = none →
      removeMediator mn initialView = some (initialView, none, []) ∧
      retrieveMediator mn initialView = none) :=
  removeObserver_missing_name_throws initialView "Z" 0 rfl

/-- C7: constructing a View or Model directly for a multiton key already in
the static instance map throws immediately (before any mutation, so the
original instance stays registered), `getInstance` for a present key returns
the registered instance without constructing, a repeated `getInstance` call
returns the identical instance and leaves the map unchanged, and the
constructor never throws when called by `getInstance` on an absent key. -/
theorem multiton_construction (f : Factory) (key : String) (i : Nat)
    (h : f.instanceMap key = some i) :
    viewConstruct key f = none ∧ modelConstruct key f = none ∧
    getInstanceView key f = (f, i) ∧ getInstanceModel key f = (f, i) ∧
    (∀ g : Factory,
      getInstanceView key (getInstanceView key g).1 = getInstanceView key g ∧
      getInstanceModel key (getInstanceModel key g).1 = getInstanceModel key g) ∧
    (∀ (g : Factory) (k : String), g.instanceMap k = none →
      (viewConstruct k g).isSome = true ∧ (modelConstruct k g).isSome = true) := by
  have hs : (f.instanceMap key).isSome = true := by rw [h]; rfl
  refine ⟨by simp [viewConstruct, hs], by simp [modelConstruct, hs],
    by simp [getInstanceView, h], by simp [getInstanceModel, h], ?_, ?_⟩
  · intro g
    constructor
    · cases hg : g.instanceMap key with
      | some j => simp [getInstanceView, hg]
      | none =>
          have hg' : (g.instanceMap key).isSome = false := by rw [hg]; rfl
          simp [getInstanceView, viewConstruct, hg, hg', setKey]
    · cases hg : g.instanceMap key with
      | some j => simp [getInstanceModel, hg]
      | none =>
          have hg' : (g.instanceMap key).isSome = false := by rw [hg]; rfl
          simp [getInstanceModel, modelConstruct, hg, hg', setKey]
  · intro g k hk
    have hk' : (g.instanceMap k).isSome = false := by rw [hk]; rfl
    exact ⟨by simp [viewConstruct, hk'], by simp [modelConstruct, hk']⟩

/-- The static map after one `getInstance("K")` on the empty map. -/
def wFactory : Factory := (getInstanceView "K" initialFactory).1

/-- C7 applied: a second direct construction for `"K"` throws, and repeated
`getInstance` calls return the identical instance. -/
theorem multiton_construction_witness :
    viewConstruct "K" wFactory = none ∧
    getInstanceView "K" wFactory = (wFactory, 0) :=
  ⟨(multiton_construction wFactory "K" 0 rfl).1,
   (multiton_construction wFactory "K" 0 rfl).2.2.1⟩

/-- The delivery loop's log: one `handled` entry per snapshot Observer, in
snapshot order, each followed by whatever events that handler emitted —
independent of how the handlers rewrite the View state. -/
theorem deliver_log (interp : Interp) (note : Notification) :
    ∀ (l : List Observer) (s s' : ViewState) (log : List Event),
      deliver interp note l s = some (s', log) →
      ∃ evs : List (List Event), evs.length = l.length ∧
        log = (l.zip evs).flatMap
          (fun p => Event.handled p.1.notifyId note.getName :: p.2) := by
  intro l
  induction l with
  | nil =>
      intro s s' log h
      simp only [deliver, Option.some.injEq, Prod.mk.injEq] at h
      exact ⟨[], rfl, by rw [← h.2]; rfl⟩
  | cons o rest ih =>
      intro s s' log h
      simp only [deliver] at h
      cases h1 : interp o.notifyId note s with
      | none => simp only [h1] at h; simp at h
      | some p =>
          obtain ⟨s1, ev1⟩ := p
          simp only [h1] at h
          cases h2 : deliver interp note rest s1 with
          | none => simp only [h2] at h; simp at h
          | some q =>
              obtain ⟨s2, ev2⟩ := q
              simp only [h2, Option.some.injEq, Prod.mk.injEq] at h
              obtain ⟨evs, hlen, hl⟩ := ih s1 s2 ev2 h2
              refine ⟨ev1 :: evs, by simp [hlen], ?_⟩
              rw [← h.2, hl]
              rfl

/-- C1: `notifyObservers` is a silent no-op when no observer list exists for
the notification's name; otherwise, whenever it returns normally, its log is
exactly one handler invocation per Observer of the call-time snapshot, in
registration order, each passed the notification — for every handler
semantics `interp`, so registrations and removals performed by handlers
during the call cannot change which handlers the delivery invokes. -/
theorem notifyObservers_snapshot_delivery (interp : Interp)
    (note : Notification) (s : ViewState) :
    (s.observerMap note.getName = none →
      notifyObservers interp note s = some (s, [])) ∧
    (∀ (l : List Observer) (s' : ViewState) (log : List Event),
      s.observerMap note.getName = some l →
      notifyObservers interp note s = some (s', log) →
      ∃ evs : List (List Event), evs.length = l.length ∧
        log = (l.zip evs).flatMap
          (fun p => Event.handled p.1.notifyId note.getName :: p.2)) := by
  constructor
  · intro h
    simp [notifyObservers, h]
  · intro l s' log hl hrun
    simp only [notifyObservers, hl] at hrun
    exact deliver_log interp note l s s' log hrun

/-- A single observer with identity 1. -/
def wObserverA : Observer := ⟨1, 1⟩

/-- A View with `wObserverA` registered for `"A"`. -/
def wViewA : ViewState := registerObserver "A" wObserverA initialView

/-- The notification named `"A"`. -/
def wNoteA : Notification := ⟨"A"⟩

/-- C1 applied: delivering `"A"` on `wViewA` with inert handlers logs
exactly the snapshot's single handler invocation. -/
theorem notifyObservers_snapshot_delivery_witness :
    ∃ evs : List (List Event), evs.length = [wObserverA].length ∧
      [Event.handled 1 "A"] = ([wObserverA].zip evs).flatMap
        (fun p => Event.handled p.1.notifyId wNoteA.getName :: p.2) :=
  (notifyObservers_snapshot_delivery inertInterp wNoteA wViewA).2
    [wObserverA] wViewA [Event.handled 1 "A"] rfl rfl

/-- `registerObserver` preserves the no-empty-lists invariant. -/
theorem noEmpty_registerObserver (n : String) (o : Observer) (s : ViewState)
    (h : NoEmptyLists s) : NoEmptyLists (registerObserver n o s) := by
  unfold NoEmptyLists
  intro k
  unfold registerObserver
  cases hs : s.observerMap n with
  | none =>
      show setKey s.observerMap n (some [o]) k ≠ some []
      by_cases hk : k = n
      · subst hk; rw [setKey_same]; simp
      · rw [setKey_other _ _ _ _ hk]; exact h k
  | some l =>
      show setKey s.observerMap n (some (l ++ [o])) k ≠ some []
      by_cases hk : k = n
      · subst hk; rw [setKey_same]; simp
      · rw [setKey_other _ _ _ _ hk]; exact h k

/-- `removeObserver` preserves the no-empty-lists invariant: it deletes the
key outright when the list's length falls to zero. -/
theorem noEmpty_removeObserver (n : String) (c : Nat) (s s' : ViewState)
    (h : NoEmptyLists s) (hrun : removeObserver n c s = some s') :
    NoEmptyLists s' := by
  unfold NoEmptyLists
  intro k
  unfold removeObserver at hrun
  cases hs : s.observerMap n with
  | none => simp only [hs] at hrun; simp at hrun
  | some l =>
      simp only [hs] at hrun
      by_cases hz : (removeLastCtx c l).length = 0
      · rw [if_pos hz] at hrun
        obtain rfl := Option.some.inj hrun
        by_cases hk : k = n
        · subst hk
          show setKey s.observerMap k none k ≠ some []
          rw [setKey_same]
          simp
        · show setKey s.observerMap n none k ≠ some []
          rw [setKey_other _ _ _ _ hk]
          exact h k
      · rw [if_neg hz] at hrun
        obtain rfl := Option.some.inj hrun
        by_cases hk : k = n
        · subst hk
          show setKey s.observerMap k (some (removeLastCtx c l)) k ≠ some []
          rw [setKey_same]
          intro hcontra
          exact hz (by rw [Option.some.inj hcontra]; rfl)
        · show setKey s.observerMap n (some (removeLastCtx c l)) k ≠ some []
          rw [setKey_other _ _ _ _ hk]
          exact h k

/-- Sequences of observer-API calls preserve the no-empty-lists invariant. -/
theorem noEmpty_runOps :
    ∀ (ops : List ViewOp) (s : ViewState), NoEmptyLists s →
      ∀ s', runOps ops s = some s' → NoEmptyLists s' := by
  intro ops
  induction ops with
  | nil =>
      intro s h s' hrun
      simp only [runOps, Option.some.injEq] at hrun
      rw [← hrun]
      exact h
  | cons op rest ih =>
      intro s h s' hrun
      simp only [runOps] at hrun
      cases hop : applyOp op s with
      | none => simp only [hop] at hrun; simp at hrun
      | some s1 =>
          simp only [hop] at hrun
          have h1 : NoEmptyLists s1 := by
            cases op with
            | regObs nm o =>
                have he : registerObserver nm o s = s1 :=
                  Option.some.inj (by simpa [applyOp] using hop)
                rw [← he]
                exact noEmpty_registerObserver nm o s h
            | remObs nm c =>
                exact noEmpty_removeObserver nm c s s1 h (by simpa [applyOp] using hop)
          exact ih s1 h1 s' hrun

/-- C2: over every sequence of `registerObserver`/`removeObserver` calls on
a fresh View that returns normally, `observerMap` never maps any name to an
empty list; and whenever a name's list holds a single observer matching the
removed context, `removeObserver` leaves the name absent from the map. -/
theorem observerMap_no_empty_lists (ops : List ViewOp) (s' : ViewState)
    (h : runOps ops initialView = some s') :
    NoEmptyLists s' ∧
    (∀ (n : String) (o : Observer) (c : Nat) (s₂ : ViewState),
      s'.observerMap n = some [o] → compareNotifyContext o c = true →
      removeObserver n c s' = some s₂ → s₂.observerMap n = none) := by
  constructor
  · exact noEmpty_runOps ops initialView (fun k => by simp [initialView]) s' h
  · intro n o c s₂ hobs hcmp hrem
    have hlast : removeLastCtx c [o] = [] := by
      simp [removeLastCtx, removeFirstMatch, hcmp]
    simp only [removeObserver, hobs, hlast, List.length_nil, if_pos,
      Option.some.injEq] at hrem
    rw [← hrem]
    exact setKey_same _ _ _

/-- A one-call trace registering one observer for `"A"`. -/
def wOpsA : List ViewOp := [ViewOp.regObs "A" wObserverA]

/-- The state the trace `wOpsA` reaches. -/
def wViewOps : ViewState := registerObserver "A" wObserverA initialView

/-- C2 applied: after the trace `wOpsA`, no name maps to an empty list. -/
theorem observerMap_no_empty_lists_witness :
    wViewOps.observerMap "B" ≠ some [] :=
  (observerMap_no_empty_lists wOpsA wViewOps rfl).1 "B"

/-- A scan over only non-matching observers removes nothing. -/
theorem removeFirstMatch_no_match (c : Nat) :
    ∀ l : List Observer, (∀ x ∈ l, compareNotifyContext x c = false) →
      removeFirstMatch c l = l := by
  intro l
  induction l with
  | nil => intro _; rfl
  | cons o rest ih =>
      intro h
      have ho := h o (List.mem_cons_self o rest)
      simp [removeFirstMatch, ho, ih (fun x hx => h x (List.mem_cons_of_mem o hx))]

/-- The scan passes over a non-matching prefix unchanged. -/
theorem removeFirstMatch_append (c : Nat) (a b : List Observer)
    (h : ∀ x ∈ a, compareNotifyContext x c = false) :
    removeFirstMatch c (a ++ b) = a ++ removeFirstMatch c b := by
  induction a with
  | nil => rfl
  | cons o rest ih =>
      have ho := h o (List.mem_cons_self o rest)
      simp [removeFirstMatch, ho,
        ih (fun x hx => h x (List.mem_cons_of_mem o hx))]

/-- A forward scan that finds a match splits the list at the first match. -/
theorem removeFirstMatch_decomp (c : Nat) :
    ∀ l : List Observer, (∃ o ∈ l, compareNotifyContext o c = true) →
      ∃ l₁ o l₂, l = l₁ ++ o :: l₂ ∧ compareNotifyContext o c = true ∧
        (∀ x ∈ l₁, compareNotifyContext x c = false) ∧
        removeFirstMatch c l = l₁ ++ l₂ := by
  intro l
  induction l with
  | nil => intro h; simp at h
  | cons a rest ih =>
      intro h
      by_cases ha : compareNotifyContext a c = true
      · exact ⟨[], a, rest, rfl, ha, by simp, by simp [removeFirstMatch, ha]⟩
      · have ha' : compareNotifyContext a c = false := by
          cases hb : compareNotifyContext a c with
          | true => exact absurd hb ha
          | false => rfl
        have hrest : ∃ o ∈ rest, compareNotifyContext o c = true := by
          obtain ⟨o, ho, hc⟩ := h
          rcases List.mem_cons.mp ho with h1 | h2
          · subst h1; exact absurd hc ha
          · exact ⟨o, h2, hc⟩
        obtain ⟨l₁, o, l₂, he, hc, hno, hr⟩ := ih hrest
        refine ⟨a :: l₁, o, l₂, by simp [he], hc, ?_, ?_⟩
        · intro x hx
          rcases List.mem_cons.mp hx with h1 | h2
          · subst h1; exact ha'
          · exact hno x h2
        · simp [removeFirstMatch, ha', hr]

/-- The reverse scan of `removeObserver` splits the list at its last match:
the removed observer is the most recently registered one whose context
matches, and everything else is kept in order. -/
theorem removeLastCtx_decomp (c : Nat) (l : List Observer)
    (h : ∃ o ∈ l, compareNotifyContext o c = true) :
    ∃ l₁ o l₂, l = l₁ ++ o :: l₂ ∧ compareNotifyContext o c = true ∧
      (∀ x ∈ l₂, compareNotifyContext x c = false) ∧
      removeLastCtx c l = l₁ ++ l₂ := by
  have hrev : ∃ o ∈ l.reverse, compareNotifyContext o c = true := by
    obtain ⟨o, ho, hc⟩ := h
    exact ⟨o, List.mem_reverse.mpr ho, hc⟩
  obtain ⟨r₁, o, r₂, he, hc, hno, hr⟩ := removeFirstMatch_decomp c l.reverse hrev
  have hl : l = r₂.reverse ++ o :: r₁.reverse := by
    have : l.reverse.reverse = (r₁ ++ o :: r₂).reverse := by rw [he]
    simpa [List.reverse_append] using this
  refine ⟨r₂.reverse, o, r₁.reverse, hl, hc, ?_, ?_⟩
  · intro x hx
    exact hno x (List.mem_reverse.mp hx)
  · unfold removeLastCtx
    rw [hr]
    simp [List.reverse_append]

/-- Removing by context from a list whose unique match is `o` drops exactly
`o`. -/
theorem removeLastCtx_unique (c : Nat) (l₁ : List Observer) (o : Observer)
    (l₂ : List Observer) (ho : compareNotifyContext o c = true)
    (h₂ : ∀ x ∈ l₂, compareNotifyContext x c = false) :
    removeLastCtx c (l₁ ++ o :: l₂) = l₁ ++ l₂ := by
  unfold removeLastCtx
  rw [List.reverse_append, List.reverse_cons, List.append_assoc,
    removeFirstMatch_append c l₂.reverse _
      (fun x hx => h₂ x (List.mem_reverse.mp hx))]
  simp [removeFirstMatch, ho, List.reverse_append]

/-- C6: when the list for a notification name contains at least one observer
whose context identity-equals the given one, `removeObserver` removes
exactly one — the most recently registered match (`l` splits as
`l₁ ++ o :: l₂` with no match after `o`) — leaving every other entry,
including earlier duplicates with the same context, in place and every other
notification name untouched. -/
theorem removeObserver_most_recent_match (s : ViewState) (name : String)
    (c : Nat) (l : List Observer) (h : s.observerMap name = some l)
    (hm : ∃ o ∈ l, compareNotifyContext o c = true) :
    ∃ l₁ o l₂, l = l₁ ++ o :: l₂ ∧ compareNotifyContext o c = true ∧
      (∀ x ∈ l₂, compareNotifyContext x c = false) ∧
      ∃ s', removeObserver name c s = some s' ∧
        s'.observerMap name =
          (if l₁ ++ l₂ = [] then none else some (l₁ ++ l₂)) ∧
        (∀ k, k ≠ name → s'.observerMap k = s.observerMap k) := by
  obtain ⟨l₁, o, l₂, he, hc, hno, hr⟩ := removeLastCtx_decomp c l hm
  refine ⟨l₁, o, l₂, he, hc, hno, ?_⟩
  by_cases hz : l₁ ++ l₂ = []
  · refine ⟨{ s with observerMap := setKey s.observerMap name none },
      ?_, ?_, ?_⟩
    · simp [removeObserver, h, hr, hz]
    · rw [if_pos hz]
      exact setKey_same _ _ _
    · intro k hk
      exact setKey_other _ _ _ _ hk
  · refine ⟨{ s with
        observerMap := setKey s.observerMap name (some (l₁ ++ l₂)) },
      ?_, ?_, ?_⟩
    · have hlen : ¬(l₁ ++ l₂).length = 0 := by
        simpa [List.length_eq_zero] using hz
      simp only [removeObserver, h, hr]
      rw [if_neg hlen]
    · rw [if_neg hz]
      exact setKey_same _ _ _
    · intro k hk
      exact setKey_other _ _ _ _ hk

/-- A View whose `"D"` list holds two observers of context 7 around one of
context 9. -/
def wViewDup : ViewState :=
  { mediatorMap := fun _ => none,
    observerMap := fun n =>
      if n = "D" then some [⟨1, 7⟩, ⟨2, 9⟩, ⟨3, 7⟩] else none }

/-- C6 applied: removing context 7 from `wViewDup` removes only the
most-recently-registered match. -/
theorem removeObserver_most_recent_match_witness :
    ∃ l₁ o l₂, ([⟨1, 7⟩, ⟨2, 9⟩, ⟨3, 7⟩] : List Observer) = l₁ ++ o :: l₂ ∧
      compareNotifyContext o 7 = true ∧
      (∀ x ∈ l₂, compareNotifyContext x 7 = false) ∧
      ∃ s', removeObserver "D" 7 wViewDup = some s' ∧
        s'.observerMap "D" =
          (if l₁ ++ l₂ = [] then none else some (l₁ ++ l₂)) ∧
        (∀ k, k ≠ "D" → s'.observerMap k = wViewDup.observerMap k) :=
  removeObserver_most_recent_match wViewDup "D" 7
    [⟨1, 7⟩, ⟨2, 9⟩, ⟨3, 7⟩] rfl (by decide)

/-- The reverse teardown loop of `removeMediator`: if each interest's list
holds exactly one observer referencing the mediator (by context or by
handler), the loop succeeds, purges that observer from every interest's list
while leaving other keys and the mediator map untouched. -/
theorem removeObserversRev_spec (c : Nat) :
    ∀ (interests : List String) (s : ViewState),
      interests.Nodup →
      (∀ n ∈ interests, ∃ l₁ o l₂,
        s.observerMap n = some (l₁ ++ o :: l₂) ∧ o.context = c ∧
        (∀ x ∈ l₁ ++ l₂, x.context ≠ c ∧ x.notifyId ≠ c)) →
      ∃ s', removeObserversRev interests c s = some s' ∧
        (∀ n ∈ interests, ∀ l, s'.observerMap n = some l →
          ∀ x ∈ l, x.context ≠ c ∧ x.notifyId ≠ c) ∧
        (∀ k, k ∉ interests → s'.observerMap k = s.observerMap k) ∧
        s'.mediatorMap = s.mediatorMap := by
  intro interests
  induction interests with
  | nil =>
      intro s _ _
      exact ⟨s, rfl, by simp, fun k _ => rfl, rfl⟩
  | cons n rest ih =>
      intro s hnd hobs
      have hnr : n ∉ rest := (List.nodup_cons.mp hnd).1
      obtain ⟨s1, hs1, hclean, hframe, hmed⟩ :=
        ih s (List.nodup_cons.mp hnd).2
          (fun k hk => hobs k (List.mem_cons_of_mem n hk))
      obtain ⟨l₁, o, l₂, hmap, hoc, hP⟩ := hobs n (List.mem_cons_self n rest)
      have hmap1 : s1.observerMap n = some (l₁ ++ o :: l₂) := by
        rw [hframe n hnr]
        exact hmap
      have hlast : removeLastCtx c (l₁ ++ o :: l₂) = l₁ ++ l₂ :=
        removeLastCtx_unique c l₁ o l₂ ((compareNotifyContext_eq o c).mpr hoc)
          (fun x hx => (compareNotifyContext_ne x c).mpr
            (hP x (List.mem_append.mpr (Or.inr hx))).1)
      have hmemrest : ∀ k, k ∈ rest → k ≠ n := fun k hk h1 => hnr (h1 ▸ hk)
      by_cases hz : (l₁ ++ l₂).length = 0
      · refine ⟨{ s1 with observerMap := setKey s1.observerMap n none },
          ?_, ?_, ?_, hmed⟩
        · simp only [removeObserversRev, hs1, removeObserver, hmap1, hlast]
          rw [if_pos hz]
        · intro k hk l hl x hx
          have hl' : setKey s1.observerMap n none k = some l := hl
          by_cases hkn : k = n
          · subst hkn
            rw [setKey_same] at hl'
            exact absurd hl' (by simp)
          · rw [setKey_other _ _ _ _ hkn] at hl'
            rcases List.mem_cons.mp hk with h1 | h2
            · exact absurd h1 hkn
            · exact hclean k h2 l hl' x hx
        · intro k hk
          have hkn : k ≠ n := fun h1 => hk (h1 ▸ List.mem_cons_self n rest)
          show setKey s1.observerMap n none k = s.observerMap k
          rw [setKey_other _ _ _ _ hkn]
          exact hframe k (fun h2 => hk (List.mem_cons_of_mem n h2))
      · refine ⟨{ s1 with
            observerMap := setKey s1.observerMap n (some (l₁ ++ l₂)) },
          ?_, ?_, ?_, hmed⟩
        · simp only [removeObserversRev, hs1, removeObserver, hmap1, hlast]
          rw [if_neg hz]
        · intro k hk l hl x hx
          have hl' : setKey s1.observerMap n (some (l₁ ++ l₂)) k = some l := hl
          by_cases hkn : k = n
          · subst hkn
            rw [setKey_same] at hl'
            obtain rfl := Option.some.inj hl'
            exact hP x hx
          · rw [setKey_other _ _ _ _ hkn] at hl'
            rcases List.mem_cons.mp hk with h1 | h2
            · exact absurd h1 hkn
            · exact hclean k h2 l hl' x hx
        · intro k hk
          have hkn : k ≠ n := fun h1 => hk (h1 ▸ List.mem_cons_self n rest)
          show setKey s1.observerMap n (some (l₁ ++ l₂)) k = s.observerMap k
          rw [setKey_other _ _ _ _ hkn]
          exact hframe k (fun h2 => hk (List.mem_cons_of_mem n h2))

/-- C4: removing a registered mediator whose interests are distinct and each
backed by exactly one observer referencing it succeeds, removes that
observer from every interest's list (so no remaining observer in any former
interest carries the mediator's context or handler — subsequent
`notifyObservers` snapshots cannot invoke it), deletes the mediator from
`mediatorMap` (other names untouched), fires `onRemove` exactly once after
re-querying the interests, and returns the removed mediator; while
`removeMediator` of an unregistered name returns null and changes
nothing. -/
theorem removeMediator_spec (s : ViewState) (m : Mediator)
    (hreg : s.mediatorMap m.getMediatorName = some m)
    (hnd : m.listNotificationInterests.Nodup)
    (hobs : ∀ n ∈ m.listNotificationInterests, ∃ l₁ o l₂,
      s.observerMap n = some (l₁ ++ o :: l₂) ∧ o.context = m.id ∧
      (∀ x ∈ l₁ ++ l₂, x.context ≠ m.id ∧ x.notifyId ≠ m.id)) :
    ∃ s', removeMediator m.getMediatorName s =
        some (s', some m,
          [Event.interestsQueried m.getMediatorName,
           Event.onRemove m.getMediatorName]) ∧
      s'.mediatorMap m.getMediatorName = none ∧
      (∀ n ∈ m.listNotificationInterests, ∀ l, s'.observerMap n = some l →
        ∀ x ∈ l, x.context ≠ m.id ∧ x.notifyId ≠ m.id) ∧
      (∀ k, k ≠ m.getMediatorName → s'.mediatorMap k = s.mediatorMap k) ∧
      (∀ mn, s.mediatorMap mn = none → removeMediator mn s = some (s, none, [])) := by
  obtain ⟨s1, hs1, hclean, _hframe, hmed⟩ :=
    removeObserversRev_spec m.id m.listNotificationInterests s hnd hobs
  refine ⟨{ s1 with mediatorMap := setKey s1.mediatorMap m.getMediatorName none },
    ?_, ?_, ?_, ?_, ?_⟩
  · simp only [removeMediator, hreg, hs1]
  · exact setKey_same _ _ _
  · intro n hn l hl x hx
    exact hclean n hn l hl x hx
  · intro k hk
    show setKey s1.mediatorMap m.getMediatorName none k = s.mediatorMap k
    rw [setKey_other _ _ _ _ hk, hmed]
  · intro mn hmn
    simp [removeMediator, hmn]

/-- A mediator named `"M4"` with the single interest `"I4"`. -/
def wMediator4 : Mediator := ⟨"M4", ["I4"], 4⟩

/-- The View after registering `wMediator4` on a fresh instance. -/
def wView4 : ViewState := (registerMediator wMediator4 initialView).1

/-- C4 applied: removing `"M4"` from `wView4` purges its observer, deletes
it from the mediator map, fires `onRemove` once and returns it. -/
theorem removeMediator_spec_witness :
    ∃ s', removeMediator "M4" wView4 =
        some (s', some wMediator4,
          [Event.interestsQueried "M4", Event.onRemove "M4"]) ∧
      s'.mediatorMap "M4" = none ∧
      (∀ n ∈ wMediator4.listNotificationInterests, ∀ l,
        s'.observerMap n = some l → ∀ x ∈ l, x.context ≠ 4 ∧ x.notifyId ≠ 4) ∧
      (∀ k, k ≠ "M4" → s'.mediatorMap k = wView4.mediatorMap k) ∧
      (∀ mn, wView4.mediatorMap mn = none →
        removeMediator mn wView4 = some (wView4, none, [])) :=
  removeMediator_spec wView4 wMediator4 rfl (by decide)
    (by
      intro n hn
      have hn' : n = "I4" := by
        simpa [wMediator4, Mediator.listNotificationInterests] using hn
      subst hn'
      exact ⟨[], ⟨4, 4⟩, [], rfl, rfl, by simp⟩)

end PureMVC
